import Mathlib

/-!
Shallow embedding of the WebAR upload/serving server (`server.js`).

Paths are modelled as lists of segments, file contents as lists of bytes
(`Nat`), and the filesystem as a partial map from paths to contents.
JavaScript numbers appearing in the range arithmetic are modelled as
`Option Int` (`none` standing for `NaN`); coordinates and the haversine
computation are modelled over the reals.
-/

namespace WebAR

/-- A filesystem path, as a list of segments. -/
abbrev Path := List String

/-- File contents: a list of bytes. -/
abbrev Bytes := List Nat

/-- The filesystem: maps a path to the contents of the file there, or
`none` when no file exists at that path (`fs.existsSync` is `Option.isSome`). -/
abbrev FS := Path → Option Bytes

/-- One step of Node `path.join` normalisation: empty and `"."` segments are
dropped, `".."` removes the preceding segment. -/
def normStep (acc : List String) (seg : String) : List String :=
  if seg = "" ∨ seg = "." then acc
  else if seg = ".." then acc.dropLast
  else acc ++ [seg]

/-- Node `path.join(root, rel)`: append the segments of `rel` to `root`,
normalising `".."` and `"."` segments. -/
def pathJoin (root : Path) (segs : List String) : Path :=
  segs.foldl normStep root

/-- Split a character list at every occurrence of the separator `c`
(JavaScript `String.prototype.split` with a one-character separator). -/
def splitChar (c : Char) : List Char → List (List Char)
  | [] => [[]]
  | x :: xs =>
    match splitChar c xs with
    | [] => if x = c then [[], []] else [[x]]
    | h :: t => if x = c then [] :: h :: t else (x :: h) :: t

/-- Split a string at every occurrence of the character `c`. -/
def splitStr (c : Char) (s : String) : List String :=
  (splitChar c s.data).map (fun l => ⟨l⟩)

/-- Lower-case a string character by character. -/
def strLower (s : String) : String := ⟨s.data.map Char.toLower⟩

/-- Model of `s.endsWith suf` (JavaScript `String.prototype.endsWith`). -/
def strEndsWith (s suf : String) : Bool := suf.data.isSuffixOf s.data

/-- The model-extension whitelist test `filename.match(/\.(glb|gltf)$/i)`:
the filename ends in `.glb` or `.gltf`, compared case-insensitively. -/
def matchesModelExt (fn : String) : Bool :=
  strEndsWith (strLower fn) ".glb" || strEndsWith (strLower fn) ".gltf"

/-- The directory containing the server script (`__dirname`); its concrete
value is irrelevant to the claims. -/
def DIRNAME : Path := ["__dirname"]

/-- The directory `path.join(__dirname, 'public')`. -/
def PUBLIC_DIR : Path := pathJoin DIRNAME ["public"]

/-- The directory `path.join(__dirname, 'public', 'uploads')`. -/
def UPLOADS_DIR : Path := pathJoin DIRNAME ["public", "uploads"]

/-- The directory `path.join(UPLOADS_DIR, 'optimized')`. -/
def OPTIMIZED_DIR : Path := pathJoin UPLOADS_DIR ["optimized"]

/-! ## JavaScript numbers (integer fragment)

The range arithmetic in the serving handler only ever combines integers
(`parseInt` results and file sizes), so JavaScript numbers are modelled as
`Option Int`, with `none` standing for `NaN`; arithmetic propagates `NaN`. -/

/-- A JavaScript number restricted to the integer fragment; `none` is `NaN`. -/
abbrev JSNum := Option Int

/-- JavaScript subtraction on (integer) numbers; `NaN` propagates. -/
def jsSub : JSNum → JSNum → JSNum
  | some a, some b => some (a - b)
  | _, _ => none

/-- JavaScript addition on (integer) numbers; `NaN` propagates. -/
def jsAdd : JSNum → JSNum → JSNum
  | some a, some b => some (a + b)
  | _, _ => none

/-- Template-literal rendering of a (integer) JavaScript number. -/
def jsNumStr : JSNum → String
  | none => "NaN"
  | some n => toString n

/-- Value of a list of decimal digit characters. -/
def digitsVal (ds : List Char) : Nat :=
  ds.foldl (fun a c => 10 * a + (c.toNat - 48)) 0

/-- Longest decimal-digit prefix of a character list, or `none` if there is
no leading digit. -/
def parseDigitPrefix (cs : List Char) : Option Nat :=
  match cs.takeWhile Char.isDigit with
  | [] => none
  | ds => some (digitsVal ds)

/-- JavaScript `parseInt(s, 10)` on a character list: skip leading spaces,
read an optional sign and then the longest digit prefix; `NaN` (`none`) when
no digit follows. -/
def parseIntChars (cs₀ : List Char) : JSNum :=
  match cs₀.dropWhile (fun c => c = ' ') with
  | '-' :: rest => (parseDigitPrefix rest).map (fun n => -(n : Int))
  | '+' :: rest => (parseDigitPrefix rest).map (fun n => (n : Int))
  | cs => (parseDigitPrefix cs).map (fun n => (n : Int))

/-- JavaScript `parseInt(s, 10)` on a string. -/
def parseIntJS (s : String) : JSNum := parseIntChars s.data

/-- Remove the first occurrence of `pat` from a character list
(JavaScript `String.prototype.replace` with a non-global pattern). -/
def replaceFirst (pat : List Char) : List Char → List Char
  | [] => []
  | c :: cs =>
    if pat.isPrefixOf (c :: cs) then (c :: cs).drop pat.length
    else c :: replaceFirst pat cs

/-! ## The model-serving handler `app.get('/uploads/:filename')` -/

/-- A request to `GET /uploads/:filename`: the (decoded) `filename` route
parameter and the optional `Range` header. -/
structure ServeReq where
  filename : String
  range : Option String
  deriving DecidableEq, Repr

/-- The response head produced by the serving handler (the headers it sets
and the status code it writes). -/
structure ServeResponse where
  status : Nat
  cacheControl : String
  contentType : String
  acceptRanges : String
  xOptimized : Bool
  contentRange : Option String
  contentLength : JSNum
  deriving DecidableEq, Repr

/-- Outcome of the serving handler: pass to the next handler (`next()`), or
respond with a head and a streamed body. -/
inductive ServeResult where
  | next
  | ok (r : ServeResponse) (body : Bytes)
  deriving DecidableEq, Repr

/-- The path `path.join(OPTIMIZED_DIR, filename)`. -/
def optimizedPathOf (fn : String) : Path := pathJoin OPTIMIZED_DIR (splitStr '/' fn)

/-- The path `path.join(UPLOADS_DIR, filename)`. -/
def originalPathOf (fn : String) : Path := pathJoin UPLOADS_DIR (splitStr '/' fn)

/-- The `filePath` variable: the optimized path when a file exists there,
otherwise the original path. -/
def selectedPath (fs : FS) (fn : String) : Path :=
  if (fs (optimizedPathOf fn)).isSome then optimizedPathOf fn else originalPathOf fn

/-- Contents of the selected file, or `none` when no file exists at the
selected path. -/
def selectFile (fs : FS) (fn : String) : Option Bytes := fs (selectedPath fs fn)

/-- The `Content-Type` header: `filename.endsWith('.glb')`, case-sensitively,
decides binary glTF versus JSON glTF. -/
def contentTypeOf (fn : String) : String :=
  if strEndsWith fn ".glb" then "model/gltf-binary" else "model/gltf+json"

/-- Parse the `Range` header against a file size:
`range.replace(/bytes=/, '').split('-')`, `parseInt(parts[0], 10)`, and
`parts[1] ? parseInt(parts[1], 10) : fileSize - 1` (recall that in
JavaScript both a missing `parts[1]` and an empty string are falsy). -/
def parseRange (fileSize : Nat) (range : String) : JSNum × JSNum :=
  let parts := splitChar '-' (replaceFirst "bytes=".data range.data)
  let start := match parts.head? with
    | some p => parseIntChars p
    | none => none
  let «end» := match parts[1]? with
    | some p => if p = [] then some ((fileSize : Int) - 1) else parseIntChars p
    | none => some ((fileSize : Int) - 1)
  (start, «end»)

/-- Model of `fs.createReadStream(filePath, with start and end)` piped to the response:
the bytes from `start` to `end` inclusive (clamped at end of file). Node
raises a stream error for `NaN`, negative, or inverted bounds; that error
path is modelled as an empty body. -/
def streamRange (content : Bytes) (start «end» : JSNum) : Bytes :=
  match start, «end» with
  | some s, some e =>
    if 0 ≤ s ∧ s ≤ e then (content.drop s.toNat).take (e.toNat + 1 - s.toNat)
    else []
  | _, _ => []

/-- The body of the handler once a file has been selected: set the headers,
then answer the `Range` request (status 206) or stream the whole file
(status 200). -/
def serveSelected (fn : String) (xOpt : Bool) (content : Bytes)
    (range : Option String) : ServeResult :=
  let fileSize := content.length
  match range with
  | some r =>
    let parsed := parseRange fileSize r
    let start := parsed.1
    let «end» := parsed.2
    let chunkSize := jsAdd (jsSub «end» start) (some 1)
    .ok { status := 206
          cacheControl := "public, max-age=2592000, immutable"
          contentType := contentTypeOf fn
          acceptRanges := "bytes"
          xOptimized := xOpt
          contentRange := some ("bytes " ++ jsNumStr start ++ "-" ++ jsNumStr «end»
                                  ++ "/" ++ toString fileSize)
          contentLength := chunkSize }
      (streamRange content start «end»)
  | none =>
    .ok { status := 200
          cacheControl := "public, max-age=2592000, immutable"
          contentType := contentTypeOf fn
          acceptRanges := "bytes"
          xOptimized := xOpt
          contentRange := none
          contentLength := some (fileSize : Int) }
      content

/-- The `GET /uploads/:filename` handler: intercept only model files, prefer
the optimized variant, fall through (`next()`) when no file exists, and
serve full or partial content according to the `Range` header. -/
def serveUpload (fs : FS) (req : ServeReq) : ServeResult :=
  if matchesModelExt req.filename then
    match selectFile fs req.filename with
    | none => .next
    | some content =>
      serveSelected req.filename (fs (optimizedPathOf req.filename)).isSome content req.range
  else .next

/-! ## The metadata store (`getDB` / `saveDB`)

The store is a JSON mapping held in a module-level cache `dbCache` and
mirrored to the file `DB_FILE`. The mapping itself is kept abstract (type
`α`); `writeOk` models whether `fs.writeFileSync` succeeds or raises. -/

/-- State of the metadata store: the in-memory cache `dbCache` (`none` when
not yet populated) and the on-disk contents of `DB_FILE`. -/
structure DBState (α : Type) where
  cache : Option α
  disk : α
  deriving DecidableEq, Repr

/-- The value returned by `getDB()`: the cache when populated, otherwise the
parsed on-disk file (which `getDB` then also stores into the cache; only the
returned value matters to the claims). -/
def getDB {α : Type} (st : DBState α) : α :=
  match st.cache with
  | some db => db
  | none => st.disk

/-- Model of `saveDB(db)`: assign `dbCache = db` first, then `fs.writeFileSync`. When
the write raises (`writeOk = false`) the exception propagates, but the cache
assignment has already happened; the disk keeps its previous contents. -/
def saveDB {α : Type} (st : DBState α) (db : α) (writeOk : Bool) : DBState α :=
  { cache := some db, disk := if writeOk then db else st.disk }

/-! ## Numeric form-field coercion in `app.post('/upload')`

`parseFloat` / `parseInt` are modelled on their decimal fragment (optional
sign, digits, optional fraction for `parseFloat`), over `ℚ` resp. `Int`;
the exponent notation accepted by `parseFloat` is outside the fragment the
claims exercise. A missing form field is `undefined`, which parses to `NaN`
(`none`). `x || d` takes `d` exactly when `x` is falsy, i.e. `NaN` or `0`. -/

/-- Value of a fractional digit string: `fracVal "25" = 0.25`. -/
def fracVal (ds : List Char) : ℚ :=
  ds.foldr (fun c acc => (((c.toNat - 48 : Nat) : ℚ) + acc) / 10) 0

/-- Magnitude part of `parseFloat`: longest `digits[.digits]` prefix. -/
def parseFloatMag (cs : List Char) : Option ℚ :=
  match cs.takeWhile Char.isDigit, cs.dropWhile Char.isDigit with
  | [], '.' :: rest =>
    match rest.takeWhile Char.isDigit with
    | [] => none
    | fd => some (fracVal fd)
  | [], _ => none
  | ds, '.' :: rest => some ((digitsVal ds : ℚ) + fracVal (rest.takeWhile Char.isDigit))
  | ds, _ => some ((digitsVal ds : ℚ))

/-- JavaScript `parseFloat` on a character list (decimal fragment). -/
def parseFloatChars (cs₀ : List Char) : Option ℚ :=
  match cs₀.dropWhile (fun c => c = ' ') with
  | '-' :: rest => (parseFloatMag rest).map (fun q => -q)
  | '+' :: rest => parseFloatMag rest
  | cs => parseFloatMag cs

/-- Evaluation of `parseFloat(field)` where `field` is an optional form field
(`parseFloat(undefined)` is `NaN`). -/
def parseFloatField : Option String → Option ℚ
  | none => none
  | some s => parseFloatChars s.data

/-- Evaluation of `parseInt(field, 10)` where `field` is an optional form field. -/
def parseIntField : Option String → JSNum
  | none => none
  | some s => parseIntChars s.data

/-- Coercion `x || d` on a (rational) JavaScript number: `d` when `x` is `NaN` or `0`. -/
def jsOrQ (x : Option ℚ) (d : ℚ) : ℚ :=
  match x with
  | none => d
  | some v => if v = 0 then d else v

/-- Coercion `x || d` on an (integer) JavaScript number: `d` when `x` is `NaN` or `0`. -/
def jsOrI (x : JSNum) (d : Int) : Int :=
  match x with
  | none => d
  | some v => if v = 0 then d else v

/-- The numeric form fields of an upload request (each `none` when absent). -/
structure UploadForm where
  modelY : Option String
  characterHeight : Option String
  statStrength : Option String
  statStrategy : Option String
  statLeadership : Option String
  statDefense : Option String
  deriving DecidableEq, Repr

/-- The `characterStats` object stored in the record. -/
structure CharacterStats where
  strength : Int
  strategy : Int
  leadership : Int
  defense : Int
  deriving DecidableEq, Repr

/-- The numeric fields of the stored asset record. -/
structure AssetNumbers where
  modelY : ℚ
  characterHeight : ℚ
  characterStats : CharacterStats
  deriving DecidableEq, Repr

/-- The numeric fields of `db[id]` as built by the upload handler:
`parseFloat(req.body.modelY) || 0`, `parseFloat(req.body.characterHeight) || 170`,
and `parseInt(req.body.statX) || 80` for each stat. -/
def buildAssetNumbers (b : UploadForm) : AssetNumbers :=
  { modelY := jsOrQ (parseFloatField b.modelY) 0
    characterHeight := jsOrQ (parseFloatField b.characterHeight) 170
    characterStats :=
      { strength := jsOrI (parseIntField b.statStrength) 80
        strategy := jsOrI (parseIntField b.statStrategy) 80
        leadership := jsOrI (parseIntField b.statLeadership) 80
        defense := jsOrI (parseIntField b.statDefense) 80 } }

/-! ## `app.get('/api/asset/:id')` -/

/-- Model of `path.basename(p)`: the last `/`-separated segment. -/
def basename (p : String) : String := ((splitStr '/' p).getLast?).getD ""

/-- Response of `GET /api/asset/:id`: 404 `{error}`, or 200 with the full
stored record (spread) plus the derived fields `modelSize`, `isOptimized`
and `needsDraco`. The record type is abstract (`α`); `modelOf` reads its
`model` field. -/
inductive ApiAssetResult (α : Type) where
  | notFound
  | ok (asset : α) (modelSize : Nat) (isOptimized : Bool) (needsDraco : Bool)
  deriving DecidableEq, Repr

/-- The `GET /api/asset/:id` handler. `modelSize` is the stat size of the
optimized variant when the model file ends in `.glb` and that variant
exists, else of the original when it exists, else `0`; `isOptimized` is set
only in the first case and `needsDraco` mirrors it. -/
def apiAsset {α : Type} (modelOf : α → Option String) (fs : FS)
    (db : String → Option α) (id : String) : ApiAssetResult α :=
  match db id with
  | none => .notFound
  | some asset =>
    let sizeOpt : Nat × Bool :=
      match (modelOf asset).map basename with
      | none => (0, false)
      | some mf =>
        if strEndsWith mf ".glb" then
          match fs (optimizedPathOf mf) with
          | some c => (c.length, true)
          | none =>
            match fs (originalPathOf mf) with
            | some c => (c.length, false)
            | none => (0, false)
        else
          match fs (originalPathOf mf) with
          | some c => (c.length, false)
          | none => (0, false)
    .ok asset sizeOpt.1 sizeOpt.2 sizeOpt.2

/-! ## `app.get('/api/nearby')`: haversine distance over the reals

JavaScript numbers in the trigonometric computation are idealised as real
numbers; `Math.round(x)` is `⌊x + 1/2⌋`. -/

/-- Model of `Math.atan2(y, x)`. -/
noncomputable def atan2 (y x : ℝ) : ℝ :=
  if 0 < x then Real.arctan (y / x)
  else if x < 0 ∧ 0 ≤ y then Real.arctan (y / x) + Real.pi
  else if x < 0 ∧ y < 0 then Real.arctan (y / x) - Real.pi
  else if x = 0 ∧ 0 < y then Real.pi / 2
  else if x = 0 ∧ y < 0 then -(Real.pi / 2)
  else 0

/-- The function `haversineDistance(lat1, lon1, lat2, lon2)` from the source, with
`R = 6371000` metres. -/
noncomputable def haversineDistance (lat1 lon1 lat2 lon2 : ℝ) : ℝ :=
  let R : ℝ := 6371000
  let dLat := (lat2 - lat1) * Real.pi / 180
  let dLon := (lon2 - lon1) * Real.pi / 180
  let a := Real.sin (dLat / 2) * Real.sin (dLat / 2) +
    Real.cos (lat1 * Real.pi / 180) * Real.cos (lat2 * Real.pi / 180) *
      Real.sin (dLon / 2) * Real.sin (dLon / 2)
  R * 2 * atan2 (Real.sqrt a) (Real.sqrt (1 - a))

/-- A fixed historical site: identifier, display name, coordinates and
unlock radius in metres. Coordinates carry the exact decimal literals of
the source, as rationals. -/
structure Site where
  id : String
  name : String
  lat : ℚ
  lng : ℚ
  radius : ℚ
  deriving DecidableEq, Repr

/-- The `HISTORICAL_SITES` table. -/
def HISTORICAL_SITES : List Site :=
  [ { id := "rach-gam", name := "Rạch Gầm - Xoài Mút", lat := 10.35, lng := 106.52, radius := 2000 }
  , { id := "bach-dang", name := "Sông Bạch Đằng", lat := 20.93, lng := 106.73, radius := 2000 }
  , { id := "chi-lang", name := "Ải Chi Lăng", lat := 21.58, lng := 106.57, radius := 2000 }
  , { id := "dong-da", name := "Gò Đống Đa", lat := 21.01, lng := 105.83, radius := 1000 }
  , { id := "nhu-nguyet", name := "Sông Như Nguyệt", lat := 21.22, lng := 106.07, radius := 2000 }
  , { id := "van-kiep", name := "Vạn Kiếp", lat := 21.1, lng := 106.48, radius := 2000 }
  , { id := "lam-son", name := "Lam Sơn", lat := 20.02, lng := 105.62, radius := 2000 }
  , { id := "hoa-lu", name := "Cố đô Hoa Lư", lat := 20.28, lng := 105.92, radius := 1500 } ]

/-- A site as returned by `/api/nearby`: the spread site, `distance`
(`Math.round` of the haversine distance) and the `isNear` flag. -/
structure NearbySite where
  site : Site
  distance : ℤ
  isNear : Prop

/-- The annotation spread of a site with distance Math.round of dist and the isNear flag. -/
noncomputable def annotateSite (userLat userLng : ℝ) (s : Site) : NearbySite :=
  let dist := haversineDistance userLat userLng (s.lat : ℝ) (s.lng : ℝ)
  { site := s, distance := ⌊dist + 1 / 2⌋, isNear := dist ≤ (s.radius : ℝ) }

/-- The annotated site list, sorted by `(a, b) => a.distance - b.distance`
(JavaScript `Array.prototype.sort` is a stable sort; `mergeSort` with the
corresponding `≤` test). -/
noncomputable def nearbyBody (userLat userLng : ℝ) : List NearbySite :=
  (HISTORICAL_SITES.map (annotateSite userLat userLng)).mergeSort
    (fun a b => decide (a.distance ≤ b.distance))

/-- Query string of a `/api/nearby` request (`none` = parameter absent). -/
structure NearbyQuery where
  lat : Option String
  lng : Option String
  deriving DecidableEq, Repr

/-- Response of `/api/nearby`: 400 `{error}` or 200 with the site list. -/
inductive NearbyResult where
  | badRequest
  | ok (body : List NearbySite)

/-- Falsiness test `!lat` for a query-string parameter: true when the parameter is absent
or the empty string. -/
def jsFalsyParam : Option String → Bool
  | none => true
  | some s => decide (s = "")

/-- Evaluation of `parseFloat` on a coordinate parameter, idealised into ℝ. A parameter
that parses to `NaN` has no real counterpart and is mapped to `0`; the
claims only concern parameters that parse. -/
noncomputable def parseCoord (o : Option String) : ℝ :=
  match parseFloatField o with
  | some q => (q : ℝ)
  | none => 0

/-- The `GET /api/nearby` handler. -/
noncomputable def nearbyResponse (q : NearbyQuery) : NearbyResult :=
  if jsFalsyParam q.lat || jsFalsyParam q.lng then .badRequest
  else .ok (nearbyBody (parseCoord q.lat) (parseCoord q.lng))

/-! ## Concrete fixtures used by the witness theorems -/

/-- A filesystem with only an original (non-optimized) `m.glb`. -/
def fsOrigGlb : FS :=
  fun p => if p = originalPathOf "m.glb" then some [10, 20, 30, 40] else none

/-- A filesystem with only an optimized `a.glb`. -/
def fsOptGlb : FS :=
  fun p => if p = optimizedPathOf "a.glb" then some [1] else none

/-- A filesystem with only an original `a.glb`. -/
def fsOrigOnlyGlb : FS :=
  fun p => if p = originalPathOf "a.glb" then some [2, 2] else none

/-- The empty filesystem. -/
def fsEmpty : FS := fun _ => none

/-- A filesystem with only an original `m.GLB` (upper-case extension). -/
def fsUpperGlb : FS :=
  fun p => if p = originalPathOf "m.GLB" then some [1] else none

/-- A filesystem holding both an optimized (1-byte) and an original (2-byte)
`m.gltf`. -/
def fsGltfBoth : FS :=
  fun p =>
    if p = optimizedPathOf "m.gltf" then some [1]
    else if p = originalPathOf "m.gltf" then some [1, 2] else none

/-- A store with one record `"a"` whose model is `/uploads/m.gltf` (the
record type instantiated to just its `model` field). -/
def dbGltf : String → Option (Option String) :=
  fun i => if i = "a" then some (some "/uploads/m.gltf") else none

/-- An upload form exercising the numeric coercions. -/
def formExample : UploadForm :=
  { modelY := some "5", characterHeight := some "abc",
    statStrength := some "90", statStrategy := none,
    statLeadership := some "0", statDefense := some "7" }

/-- An upload form whose `characterHeight` and `statStrength` are the
string `"0"`. -/
def formZero : UploadForm :=
  { modelY := none, characterHeight := some "0",
    statStrength := some "0", statStrategy := none,
    statLeadership := none, statDefense := none }

/-- A filesystem with a stray `evil.glb` directly under the server
directory, outside both asset roots. -/
def fsEvil : FS :=
  fun p => if p = ["__dirname", "evil.glb"] then some [1, 2, 3] else none

/-! ## Shared lemmas -/

/-- Once the whitelist test passes and a file is selected, the serving
handler responds via `serveSelected`. -/
theorem serveUpload_eq_serveSelected (fs : FS) (req : ServeReq) (content : Bytes)
    (hm : matchesModelExt req.filename = true)
    (hsel : selectFile fs req.filename = some content) :
    serveUpload fs req =
      serveSelected req.filename (fs (optimizedPathOf req.filename)).isSome content req.range := by
  unfold serveUpload
  rw [hm, hsel]
  rfl

/-! ## Claim theorems -/

/-- C5 counterexample: starting from the synchronised state (cache `some 0`,
disk `0`), a `saveDB 1` whose file write fails does not leave the store in
the pre-write state: reads now return `1`, not `0`. -/
theorem c5_failed_write_counterexample :
    ¬ (getDB (saveDB (DBState.mk (some 0) 0 : DBState Nat) 1 false) = 0 ∧
       (saveDB (DBState.mk (some 0) 0 : DBState Nat) 1 false).disk = 0) := by
  decide

/-- C5 (amended): after a successful write, reads serve the written state
and the disk holds it; after a failed write the on-disk copy keeps its
pre-write contents, but the in-memory mirror has already been updated to
the attempted value, so reads serve the value whose write failed. -/
theorem c5_saveDB_semantics {α : Type} (st : DBState α) (db : α) :
    getDB (saveDB st db true) = db ∧
    (saveDB st db true).disk = db ∧
    (saveDB st db false).disk = st.disk ∧
    getDB (saveDB st db false) = db :=
  ⟨rfl, rfl, rfl, rfl⟩

/-- C2: a whitelisted request with no `Range` header, whose selected file
exists with contents `content`, is answered with status 200,
`Content-Length` the full file size, and the entire file as body. -/
theorem c2_full_file_response (fs : FS) (fn : String) (content : Bytes)
    (hm : matchesModelExt fn = true)
    (hsel : selectFile fs fn = some content) :
    serveUpload fs ⟨fn, none⟩ =
      .ok { status := 200
            cacheControl := "public, max-age=2592000, immutable"
            contentType := contentTypeOf fn
            acceptRanges := "bytes"
            xOptimized := (fs (optimizedPathOf fn)).isSome
            contentRange := none
            contentLength := some (content.length : Int) } content := by
  rw [serveUpload_eq_serveSelected fs ⟨fn, none⟩ content hm hsel]
  rfl

/-- C2 witness: a 4-byte `m.glb` with no optimized variant is served in
full with `Content-Length` 4. -/
theorem c2_full_file_response_witness :
    matchesModelExt "m.glb" = true ∧
    serveUpload fsOrigGlb ⟨"m.glb", none⟩ =
      .ok { status := 200
            cacheControl := "public, max-age=2592000, immutable"
            contentType := "model/gltf-binary"
            acceptRanges := "bytes"
            xOptimized := false
            contentRange := none
            contentLength := some 4 } [10, 20, 30, 40] :=
  ⟨by decide, c2_full_file_response fsOrigGlb "m.glb" [10, 20, 30, 40] (by decide) (by decide)⟩

/-- C3: with the whitelist test passed, the handler serves the optimized
file when one exists, otherwise the original file, and passes the request
on (`next()`) when neither exists. -/
theorem c3_variant_selection (fs : FS) (fn : String)
    (hm : matchesModelExt fn = true) :
    (∀ content, fs (optimizedPathOf fn) = some content →
        serveUpload fs ⟨fn, none⟩ =
          .ok { status := 200
                cacheControl := "public, max-age=2592000, immutable"
                contentType := contentTypeOf fn
                acceptRanges := "bytes"
                xOptimized := true
                contentRange := none
                contentLength := some (content.length : Int) } content)
  ∧ (∀ content, fs (optimizedPathOf fn) = none → fs (originalPathOf fn) = some content →
        serveUpload fs ⟨fn, none⟩ =
          .ok { status := 200
                cacheControl := "public, max-age=2592000, immutable"
                contentType := contentTypeOf fn
                acceptRanges := "bytes"
                xOptimized := false
                contentRange := none
                contentLength := some (content.length : Int) } content)
  ∧ (fs (optimizedPathOf fn) = none → fs (originalPathOf fn) = none →
        serveUpload fs ⟨fn, none⟩ = .next) := by
  refine ⟨?_, ?_, ?_⟩
  · intro content hopt
    have hsel : selectFile fs fn = some content := by
      simp [selectFile, selectedPath, hopt]
    rw [serveUpload_eq_serveSelected fs ⟨fn, none⟩ content hm hsel]
    simp [serveSelected, hopt]
  · intro content hopt horig
    have hsel : selectFile fs fn = some content := by
      simp [selectFile, selectedPath, hopt, horig]
    rw [serveUpload_eq_serveSelected fs ⟨fn, none⟩ content hm hsel]
    simp [serveSelected, hopt]
  · intro hopt horig
    have hsel : selectFile fs fn = none := by
      simp [selectFile, selectedPath, hopt, horig]
    unfold serveUpload
    rw [hm, hsel]
    rfl

/-- C3 witness: the three selection outcomes at concrete filesystems. -/
theorem c3_variant_selection_witness :
    serveUpload fsOptGlb ⟨"a.glb", none⟩ =
      .ok { status := 200
            cacheControl := "public, max-age=2592000, immutable"
            contentType := "model/gltf-binary"
            acceptRanges := "bytes"
            xOptimized := true
            contentRange := none
            contentLength := some 1 } [1] ∧
    serveUpload fsOrigOnlyGlb ⟨"a.glb", none⟩ =
      .ok { status := 200
            cacheControl := "public, max-age=2592000, immutable"
            contentType := "model/gltf-binary"
            acceptRanges := "bytes"
            xOptimized := false
            contentRange := none
            contentLength := some 2 } [2, 2] ∧
    serveUpload fsEmpty ⟨"a.glb", none⟩ = .next :=
  ⟨(c3_variant_selection fsOptGlb "a.glb" (by decide)).1 [1] (by decide),
   (c3_variant_selection fsOrigOnlyGlb "a.glb" (by decide)).2.1 [2, 2] (by decide) (by decide),
   (c3_variant_selection fsEmpty "a.glb" (by decide)).2.2 (by decide) (by decide)⟩

/-- C10: a filename whose lower-casing ends in `.glb` but which does not
itself end in `.glb` (e.g. `m.GLB`) passes the case-insensitive whitelist,
yet is served with `Content-Type: model/gltf+json`, since the content-type
decision tests only the lowercase suffix. -/
theorem c10_uppercase_glb_served_as_json (fs : FS) (fn : String) (content : Bytes)
    (hlow : strEndsWith (strLower fn) ".glb" = true)
    (hnl : strEndsWith fn ".glb" = false)
    (hsel : selectFile fs fn = some content) :
    matchesModelExt fn = true ∧
    serveUpload fs ⟨fn, none⟩ =
      .ok { status := 200
            cacheControl := "public, max-age=2592000, immutable"
            contentType := "model/gltf+json"
            acceptRanges := "bytes"
            xOptimized := (fs (optimizedPathOf fn)).isSome
            contentRange := none
            contentLength := some (content.length : Int) } content := by
  have hm : matchesModelExt fn = true := by
    simp [matchesModelExt, hlow]
  refine ⟨hm, ?_⟩
  rw [serveUpload_eq_serveSelected fs ⟨fn, none⟩ content hm hsel]
  simp [serveSelected, contentTypeOf, hnl]

/-- C10 witness: `m.GLB` is intercepted but typed `model/gltf+json`. -/
theorem c10_uppercase_glb_served_as_json_witness :
    strEndsWith "m.GLB" ".glb" = false ∧
    (matchesModelExt "m.GLB" = true ∧
     serveUpload fsUpperGlb ⟨"m.GLB", none⟩ =
       .ok { status := 200
             cacheControl := "public, max-age=2592000, immutable"
             contentType := "model/gltf+json"
             acceptRanges := "bytes"
             xOptimized := false
             contentRange := none
             contentLength := some 1 } [1]) :=
  ⟨by decide,
   c10_uppercase_glb_served_as_json fsUpperGlb "m.GLB" [1] (by decide) (by decide) (by decide)⟩

/-- Case analysis of the `x || d` coercion on rational numbers. -/
theorem jsOrQ_cases (x : Option ℚ) (d : ℚ) :
    ((x = none ∨ x = some 0) → jsOrQ x d = d) ∧
    (∀ v, x = some v → v ≠ 0 → jsOrQ x d = v) := by
  constructor
  · rintro (rfl | rfl) <;> simp [jsOrQ]
  · rintro v rfl hv
    simp [jsOrQ, hv]

/-- Case analysis of the `x || d` coercion on integer numbers. -/
theorem jsOrI_cases (x : JSNum) (d : Int) :
    ((x = none ∨ x = some 0) → jsOrI x d = d) ∧
    (∀ v, x = some v → v ≠ 0 → jsOrI x d = v) := by
  constructor
  · rintro (rfl | rfl) <;> simp [jsOrI]
  · rintro v rfl hv
    simp [jsOrI, hv]

/-- C6 counterexample: the form value `"0"` is present and numeric (it
parses to `0`), yet `characterHeight` is stored as the default `170` and
`statStrength` as the default `80` — numeric input replaced by the
default, contrary to the claim. -/
theorem c6_zero_input_counterexample :
    parseFloatField formZero.characterHeight = some 0 ∧
    parseIntField formZero.statStrength = some 0 ∧
    (buildAssetNumbers formZero).characterHeight = 170 ∧
    (buildAssetNumbers formZero).characterStats.strength = 80 := by
  decide

/-- C6 (amended): each numeric field is taken from the form field exactly
when the field parses to a nonzero number; when it is absent, non-numeric,
or parses to `0`, the documented default is used instead (the `||`
coercion treats `0` like `NaN`). -/
theorem c6_numeric_coercion (b : UploadForm) :
    ((parseFloatField b.modelY = none ∨ parseFloatField b.modelY = some 0) →
        (buildAssetNumbers b).modelY = 0) ∧
    (∀ v, parseFloatField b.modelY = some v → v ≠ 0 →
        (buildAssetNumbers b).modelY = v) ∧
    ((parseFloatField b.characterHeight = none ∨ parseFloatField b.characterHeight = some 0) →
        (buildAssetNumbers b).characterHeight = 170) ∧
    (∀ v, parseFloatField b.characterHeight = some v → v ≠ 0 →
        (buildAssetNumbers b).characterHeight = v) ∧
    ((parseIntField b.statStrength = none ∨ parseIntField b.statStrength = some 0) →
        (buildAssetNumbers b).characterStats.strength = 80) ∧
    (∀ v, parseIntField b.statStrength = some v → v ≠ 0 →
        (buildAssetNumbers b).characterStats.strength = v) ∧
    ((parseIntField b.statStrategy = none ∨ parseIntField b.statStrategy = some 0) →
        (buildAssetNumbers b).characterStats.strategy = 80) ∧
    (∀ v, parseIntField b.statStrategy = some v → v ≠ 0 →
        (buildAssetNumbers b).characterStats.strategy = v) ∧
    ((parseIntField b.statLeadership = none ∨ parseIntField b.statLeadership = some 0) →
        (buildAssetNumbers b).characterStats.leadership = 80) ∧
    (∀ v, parseIntField b.statLeadership = some v → v ≠ 0 →
        (buildAssetNumbers b).characterStats.leadership = v) ∧
    ((parseIntField b.statDefense = none ∨ parseIntField b.statDefense = some 0) →
        (buildAssetNumbers b).characterStats.defense = 80) ∧
    (∀ v, parseIntField b.statDefense = some v → v ≠ 0 →
        (buildAssetNumbers b).characterStats.defense = v) :=
  ⟨(jsOrQ_cases _ 0).1, (jsOrQ_cases _ 0).2,
   (jsOrQ_cases _ 170).1, (jsOrQ_cases _ 170).2,
   (jsOrI_cases _ 80).1, (jsOrI_cases _ 80).2,
   (jsOrI_cases _ 80).1, (jsOrI_cases _ 80).2,
   (jsOrI_cases _ 80).1, (jsOrI_cases _ 80).2,
   (jsOrI_cases _ 80).1, (jsOrI_cases _ 80).2⟩

/-- C6 witness: `"5"` is kept as `5`, `"abc"` and an absent field fall
back to the defaults, `"90"` and `"7"` are kept, `"0"` falls back. -/
theorem c6_numeric_coercion_witness :
    parseFloatField formExample.modelY = some 5 ∧
    (buildAssetNumbers formExample).modelY = 5 ∧
    (buildAssetNumbers formExample).characterHeight = 170 ∧
    (buildAssetNumbers formExample).characterStats.strength = 90 ∧
    (buildAssetNumbers formExample).characterStats.strategy = 80 ∧
    (buildAssetNumbers formExample).characterStats.leadership = 80 ∧
    (buildAssetNumbers formExample).characterStats.defense = 7 := by
  obtain ⟨hA, hB, hC, hD, hE, hF, hG, hH, hI, hJ, hK, hL⟩ :=
    c6_numeric_coercion formExample
  exact ⟨by decide, hB 5 (by decide) (by decide), hC (Or.inl (by decide)),
    hF 90 (by decide) (by decide), hG (Or.inl (by decide)),
    hI (Or.inr (by decide)), hL 7 (by decide) (by decide)⟩

/-- C7 counterexample: record `"a"` stores model `/uploads/m.gltf`; an
optimized variant exists (1 byte) and would be the file served, yet the
API reports `modelSize = 2` (the original) and `isOptimized = false`, not
the claimed `modelSize = 1`, `isOptimized = true`. -/
theorem c7_asset_info_counterexample :
    (fsGltfBoth (optimizedPathOf "m.gltf")).isSome = true ∧
    selectFile fsGltfBoth "m.gltf" = some [1] ∧
    apiAsset (fun m => m) fsGltfBoth dbGltf "a" =
      .ok (some "/uploads/m.gltf") 2 false false ∧
    ¬ apiAsset (fun m => m) fsGltfBoth dbGltf "a" =
        .ok (some "/uploads/m.gltf") 1 true true := by
  decide

/-- C7 (amended): `/api/asset/:id` answers 404 when the id is absent;
otherwise 200 with the full stored record and derived fields where
`isOptimized` is true exactly when the model filename ends in `.glb`
(case-sensitively) and an optimized variant exists, `modelSize` is that
variant's size in that case, else the original's size when present, else
`0` — even when, for a non-`.glb` model, an optimized variant exists and
would be the file served. -/
theorem c7_asset_info (α : Type) (modelOf : α → Option String) (fs : FS)
    (db : String → Option α) (i : String) :
    (db i = none → apiAsset modelOf fs db i = .notFound) ∧
    (∀ a mf, db i = some a → (modelOf a).map basename = some mf →
      (∀ c, strEndsWith mf ".glb" = true → fs (optimizedPathOf mf) = some c →
          apiAsset modelOf fs db i = .ok a c.length true true) ∧
      (∀ c, fs (optimizedPathOf mf) = none → fs (originalPathOf mf) = some c →
          apiAsset modelOf fs db i = .ok a c.length false false) ∧
      (∀ c, strEndsWith mf ".glb" = false → fs (originalPathOf mf) = some c →
          apiAsset modelOf fs db i = .ok a c.length false false) ∧
      (fs (optimizedPathOf mf) = none → fs (originalPathOf mf) = none →
          apiAsset modelOf fs db i = .ok a 0 false false) ∧
      (strEndsWith mf ".glb" = false → fs (originalPathOf mf) = none →
          apiAsset modelOf fs db i = .ok a 0 false false)) := by
  constructor
  · intro h
    simp [apiAsset, h]
  · intro a mf ha hmf
    refine ⟨?_, ?_, ?_, ?_, ?_⟩
    · intro c hglb hopt
      simp [apiAsset, ha, hmf, hglb, hopt]
    · intro c hopt horig
      by_cases hglb : strEndsWith mf ".glb" = true <;>
        simp [apiAsset, ha, hmf, hglb, hopt, horig]
    · intro c hglb horig
      simp [apiAsset, ha, hmf, hglb, horig]
    · intro hopt horig
      by_cases hglb : strEndsWith mf ".glb" = true <;>
        simp [apiAsset, ha, hmf, hglb, hopt, horig]
    · intro hglb horig
      simp [apiAsset, ha, hmf, hglb, horig]

/-- C7 witness: the 404 branch and the non-`.glb` branch at a concrete
store and filesystem. -/
theorem c7_asset_info_witness :
    dbGltf "zzz" = none ∧
    apiAsset (fun m => m) fsGltfBoth dbGltf "zzz" = .notFound ∧
    apiAsset (fun m => m) fsGltfBoth dbGltf "a" =
      .ok (some "/uploads/m.gltf") 2 false false :=
  ⟨by decide,
   (c7_asset_info (Option String) (fun m => m) fsGltfBoth dbGltf "zzz").1 (by decide),
   (((c7_asset_info (Option String) (fun m => m) fsGltfBoth dbGltf "a").2
       (some "/uploads/m.gltf") "m.gltf" (by decide) (by decide)).2.2.1
     [1, 2] (by decide) (by decide))⟩

/-- The function `splitChar` never returns the empty list. -/
theorem splitChar_ne_nil (c : Char) (l : List Char) : splitChar c l ≠ [] := by
  cases l with
  | nil => simp [splitChar]
  | cons x xs =>
    cases h : splitChar c xs with
    | nil => by_cases hx : x = c <;> simp [splitChar, h, hx]
    | cons a t => by_cases hx : x = c <;> simp [splitChar, h, hx]

/-- Splitting a separator-free list yields the singleton. -/
theorem splitChar_of_not_mem {c : Char} {l : List Char} (h : c ∉ l) :
    splitChar c l = [l] := by
  induction l with
  | nil => rfl
  | cons x xs ih =>
    have hx : ¬ x = c := fun e => h (e ▸ List.mem_cons_self x xs)
    have hxs : c ∉ xs := fun m => h (List.mem_cons_of_mem _ m)
    simp [splitChar, ih hxs, hx]

/-- Splitting at the first separator occurrence peels off the head chunk. -/
theorem splitChar_append {c : Char} {a : List Char} (b : List Char) (h : c ∉ a) :
    splitChar c (a ++ c :: b) = a :: splitChar c b := by
  induction a with
  | nil =>
    cases hb : splitChar c b with
    | nil => exact absurd hb (splitChar_ne_nil c b)
    | cons h0 t0 => simp [splitChar, hb]
  | cons x xs ih =>
    have hx : ¬ x = c := fun e => h (e ▸ List.mem_cons_self x xs)
    have hxs : c ∉ xs := fun m => h (List.mem_cons_of_mem _ m)
    simp [splitChar, ih hxs, hx]

/-- Removing a pattern that sits at the front of the list leaves the rest. -/
theorem replaceFirst_append (pat rest : List Char) (hp : pat ≠ []) :
    replaceFirst pat (pat ++ rest) = rest := by
  cases pat with
  | nil => exact absurd rfl hp
  | cons p ps =>
    have hpre : (p :: ps).isPrefixOf ((p :: ps) ++ rest) = true := by
      rw [ List.isPrefixOf_iff_prefix]
      exact List.prefix_append _ _
    show replaceFirst (p :: ps) (p :: (ps ++ rest)) = rest
    rw [replaceFirst, if_pos]
    · exact List.drop_left (p :: ps) rest
    · exact hpre

/-- A character that is not a digit does not occur in an all-digit list. -/
theorem not_mem_of_all_digit {l : List Char} (c : Char) (hc : c.isDigit = false)
    (h : l.all Char.isDigit = true) : c ∉ l := by
  intro hm
  have hd := List.all_eq_true.mp h c hm
  rw [hc] at hd
  exact Bool.false_ne_true hd

/-- C4 counterexample: the filename `../../evil.glb` (reachable through a
percent-encoded route parameter) passes the extension whitelist, is joined
to the roots with no validation, resolves to `__dirname/evil.glb` — outside
both the upload root and the optimized root — and the handler serves the
file found there. -/
theorem c4_traversal_counterexample :
    matchesModelExt "../../evil.glb" = true ∧
    selectedPath fsEvil "../../evil.glb" = ["__dirname", "evil.glb"] ∧
    UPLOADS_DIR.isPrefixOf ["__dirname", "evil.glb"] = false ∧
    OPTIMIZED_DIR.isPrefixOf ["__dirname", "evil.glb"] = false ∧
    serveUpload fsEvil ⟨"../../evil.glb", none⟩ =
      .ok { status := 200
            cacheControl := "public, max-age=2592000, immutable"
            contentType := "model/gltf-binary"
            acceptRanges := "bytes"
            xOptimized := false
            contentRange := none
            contentLength := some 3 } [1, 2, 3] := by
  decide

/-- C4 (amended): the handler applies no path-traversal validation — the
filename is joined verbatim to the roots — so any filename `../../base`
with `base` slash-free and ending in `.glb` passes the whitelist, resolves
to `__dirname/base` outside both the upload root and the optimized root,
and the handler serves whatever file exists there. -/
theorem c4_no_traversal_validation (base : String)
    (hslash : '/' ∉ base.data)
    (hglb : strEndsWith base ".glb" = true) :
    matchesModelExt ("../../" ++ base) = true ∧
    originalPathOf ("../../" ++ base) = ["__dirname", base] ∧
    UPLOADS_DIR.isPrefixOf ["__dirname", base] = false ∧
    OPTIMIZED_DIR.isPrefixOf ["__dirname", base] = false ∧
    (∀ (fs : FS) (content : Bytes),
      fs (optimizedPathOf ("../../" ++ base)) = none →
      fs (["__dirname", base] : Path) = some content →
      serveUpload fs ⟨"../../" ++ base, none⟩ =
        .ok { status := 200
              cacheControl := "public, max-age=2592000, immutable"
              contentType := "model/gltf-binary"
              acceptRanges := "bytes"
              xOptimized := false
              contentRange := none
              contentLength := some (content.length : Int) } content) := by
  have hsuf : ['.', 'g', 'l', 'b'] <:+ base.data :=
    List.isSuffixOf_iff_suffix.mp hglb
  have hlen : 4 ≤ base.data.length := hsuf.length_le
  have hne : base ≠ "" := by
    intro e
    rw [e] at hlen
    simp at hlen
  have hnd : base ≠ "." := by
    intro e
    rw [e] at hlen
    simp at hlen
  have hndd : base ≠ ".." := by
    intro e
    rw [e] at hlen
    simp at hlen
  have hfnglb : strEndsWith ("../../" ++ base) ".glb" = true := by
    unfold strEndsWith
    rw [List.isSuffixOf_iff_suffix]
    refine hsuf.trans ?_
    rw [show ("../../" ++ base).data = "../../".data ++ base.data from rfl]
    exact List.suffix_append _ _
  have hm : matchesModelExt ("../../" ++ base) = true := by
    have hmap : ['.', 'g', 'l', 'b'] <:+ base.data.map Char.toLower := by
      have h2 := hsuf.map Char.toLower
      rw [show ['.', 'g', 'l', 'b'].map Char.toLower = ['.', 'g', 'l', 'b'] from by decide]
        at h2
      exact h2
    have h3 : ['.', 'g', 'l', 'b'] <:+ (strLower ("../../" ++ base)).data := by
      refine hmap.trans ?_
      show base.data.map Char.toLower <:+ ("../../" ++ base).data.map Char.toLower
      rw [show ("../../" ++ base).data = "../../".data ++ base.data from rfl,
        List.map_append]
      exact List.suffix_append _ _
    have h4 : strEndsWith (strLower ("../../" ++ base)) ".glb" = true := by
      unfold strEndsWith
      rw [List.isSuffixOf_iff_suffix]
      exact h3
    simp [matchesModelExt, h4]
  have hsplit : splitStr '/' ("../../" ++ base) = ["..", "..", base] := by
    show (splitChar '/' ("../../" ++ base).data).map (fun l => (⟨l⟩ : String)) = _
    rw [show ("../../" ++ base).data =
          ['.', '.'] ++ '/' :: (['.', '.'] ++ '/' :: base.data) from rfl,
      splitChar_append _ (by decide), splitChar_append _ (by decide),
      splitChar_of_not_mem hslash]
    rfl
  have hpath : originalPathOf ("../../" ++ base) = ["__dirname", base] := by
    unfold originalPathOf
    rw [hsplit]
    simp [pathJoin, UPLOADS_DIR, PUBLIC_DIR, DIRNAME, normStep, hne, hnd, hndd]
  refine ⟨hm, hpath, ?_, ?_, ?_⟩
  · rw [show UPLOADS_DIR = ["__dirname", "public", "uploads"] from by decide]
    simp [List.isPrefixOf]
  · rw [show OPTIMIZED_DIR = ["__dirname", "public", "uploads", "optimized"] from by decide]
    simp [List.isPrefixOf]
  · intro fs content hopt hfile
    have hsel : selectFile fs ("../../" ++ base) = some content := by
      simp [selectFile, selectedPath, hopt, hpath, hfile]
    rw [serveUpload_eq_serveSelected fs ⟨"../../" ++ base, none⟩ content hm hsel]
    simp [serveSelected, contentTypeOf, hfnglb, hopt]

/-- C4 witness: the amended theorem applied to `base = evil.glb` and the
filesystem holding `__dirname/evil.glb`. -/
theorem c4_no_traversal_validation_witness :
    strEndsWith "evil.glb" ".glb" = true ∧
    originalPathOf "../../evil.glb" = ["__dirname", "evil.glb"] ∧
    serveUpload fsEvil ⟨"../../evil.glb", none⟩ =
      .ok { status := 200
            cacheControl := "public, max-age=2592000, immutable"
            contentType := "model/gltf-binary"
            acceptRanges := "bytes"
            xOptimized := false
            contentRange := none
            contentLength := some 3 } [1, 2, 3] :=
  ⟨by decide,
   (c4_no_traversal_validation "evil.glb" (by decide) (by decide)).2.1,
   (c4_no_traversal_validation "evil.glb" (by decide) (by decide)).2.2.2.2
     fsEvil [1, 2, 3] (by decide) (by decide)⟩

/-- The haversine `a`-term is symmetric under swapping the two endpoints. -/
theorem haversineA_symm (lat1 lon1 lat2 lon2 : ℝ) :
    Real.sin ((lat2 - lat1) * Real.pi / 180 / 2) * Real.sin ((lat2 - lat1) * Real.pi / 180 / 2) +
      Real.cos (lat1 * Real.pi / 180) * Real.cos (lat2 * Real.pi / 180) *
        Real.sin ((lon2 - lon1) * Real.pi / 180 / 2) * Real.sin ((lon2 - lon1) * Real.pi / 180 / 2) =
    Real.sin ((lat1 - lat2) * Real.pi / 180 / 2) * Real.sin ((lat1 - lat2) * Real.pi / 180 / 2) +
      Real.cos (lat2 * Real.pi / 180) * Real.cos (lat1 * Real.pi / 180) *
        Real.sin ((lon1 - lon2) * Real.pi / 180 / 2) * Real.sin ((lon1 - lon2) * Real.pi / 180 / 2) := by
  have hs : ∀ u v : ℝ,
      Real.sin ((u - v) * Real.pi / 180 / 2) = -Real.sin ((v - u) * Real.pi / 180 / 2) := by
    intro u v
    rw [show (u - v) * Real.pi / 180 / 2 = -((v - u) * Real.pi / 180 / 2) by ring,
      Real.sin_neg]
  rw [hs lat2 lat1, hs lon2 lon1]
  ring

/-- C9: the haversine distance is symmetric in its two coordinate pairs. -/
theorem c9_haversine_symmetric (lat1 lon1 lat2 lon2 : ℝ) :
    haversineDistance lat1 lon1 lat2 lon2 = haversineDistance lat2 lon2 lat1 lon1 := by
  simp only [haversineDistance]
  rw [haversineA_symm lat1 lon1 lat2 lon2]

/-- Evaluation of the range parser on a well-formed
`bytes=<start>-<end>` / `bytes=<start>-` header. -/
theorem parseRange_eval (fileSize : Nat) (ss se : String) (s e : Nat)
    (hss : ss.data.all Char.isDigit = true)
    (hs : parseIntChars ss.data = some (s : Int))
    (he : (se = "" ∧ ((fileSize : Int) - 1) = (e : Int)) ∨
          (se.data.all Char.isDigit = true ∧ se ≠ "" ∧ parseIntChars se.data = some (e : Int))) :
    parseRange fileSize ("bytes=" ++ ss ++ "-" ++ se) = (some (s : Int), some (e : Int)) := by
  unfold parseRange
  have hdata : ("bytes=" ++ ss ++ "-" ++ se).data
      = "bytes=".data ++ (ss.data ++ '-' :: se.data) := by
    rw [show ("bytes=" ++ ss ++ "-" ++ se).data
          = (("bytes=".data ++ ss.data) ++ "-".data) ++ se.data from rfl]
    rw [List.append_assoc, List.append_assoc]
    rfl
  rw [hdata, replaceFirst_append _ _ (by decide),
    splitChar_append _ (not_mem_of_all_digit '-' (by decide) hss)]
  rcases he with ⟨hse0, hee⟩ | ⟨hsed, hsne, hpe⟩
  · subst hse0
    simp [splitChar, hs, hee]
  · have hd : se.data ≠ [] := by
      intro h0
      apply hsne
      cases se with
      | mk d =>
        simp only at h0
        simp [h0]
    rw [splitChar_of_not_mem (not_mem_of_all_digit '-' (by decide) hsed)]
    simp [hs, hpe, hd]

/-- C1: a whitelisted request whose selected file has contents `content`,
carrying a `Range: bytes=<start>-<end>` header (`<start>`, `<end>` decimal;
`<end>` defaulting to `fileSize - 1` when omitted) with an in-bounds window
`start ≤ end < fileSize`, is answered with status 206,
`Content-Range: bytes <start>-<end>/<fileSize>`,
`Content-Length = end - start + 1`, and exactly the inclusive byte window
`[start, end]` of the file as body. -/
theorem c1_partial_content (fs : FS) (fn ss se : String) (content : Bytes) (s e : Nat)
    (hm : matchesModelExt fn = true)
    (hsel : selectFile fs fn = some content)
    (hss : ss.data.all Char.isDigit = true)
    (hs : parseIntChars ss.data = some (s : Int))
    (he : (se = "" ∧ e = content.length - 1) ∨
          (se.data.all Char.isDigit = true ∧ se ≠ "" ∧ parseIntChars se.data = some (e : Int)))
    (hse : s ≤ e) (hlt : e < content.length) :
    serveUpload fs ⟨fn, some ("bytes=" ++ ss ++ "-" ++ se)⟩ =
      .ok { status := 206
            cacheControl := "public, max-age=2592000, immutable"
            contentType := contentTypeOf fn
            acceptRanges := "bytes"
            xOptimized := (fs (optimizedPathOf fn)).isSome
            contentRange := some ("bytes " ++ toString s ++ "-" ++ toString e
                                    ++ "/" ++ toString content.length)
            contentLength := some ((e : Int) - (s : Int) + 1) }
        ((content.drop s).take (e + 1 - s)) := by
  rw [serveUpload_eq_serveSelected fs _ content hm hsel]
  have hparse : parseRange content.length ("bytes=" ++ ss ++ "-" ++ se)
      = (some (s : Int), some (e : Int)) := by
    refine parseRange_eval content.length ss se s e hss hs ?_
    rcases he with ⟨hse0, hee⟩ | hr
    · exact Or.inl ⟨hse0, by omega⟩
    · exact Or.inr hr
  have hle : ((s : Nat) : Int) ≤ ((e : Nat) : Int) := by exact_mod_cast hse
  simp only [serveSelected, hparse, jsAdd, jsSub, jsNumStr, streamRange]
  rw [if_pos ⟨Int.ofNat_nonneg s, hle⟩]
  simp [Int.toNat_natCast]
  rfl

/-- C1 witness: `Range: bytes=1-2` against a 4-byte file yields 206,
`Content-Range: bytes 1-2/4`, `Content-Length: 2` and the bytes at
positions 1 and 2. -/
theorem c1_partial_content_witness :
    parseIntChars "1".data = some 1 ∧
    serveUpload fsOrigGlb ⟨"m.glb", some "bytes=1-2"⟩ =
      .ok { status := 206
            cacheControl := "public, max-age=2592000, immutable"
            contentType := "model/gltf-binary"
            acceptRanges := "bytes"
            xOptimized := false
            contentRange := some "bytes 1-2/4"
            contentLength := some 2 } [20, 30] :=
  ⟨by decide,
   c1_partial_content fsOrigGlb "m.glb" "1" "2" [10, 20, 30, 40] 1 2
     (by decide) (by decide) (by decide) (by decide)
     (Or.inr ⟨by decide, by decide, by decide⟩) (by decide) (by decide)⟩

/-- C8: `/api/nearby` answers 400 exactly when `lat` or `lng` is missing
(or empty); otherwise its body is a permutation of the fixed sites, each
annotated with the rounded haversine distance from the given coordinate
and an `isNear` flag holding exactly when that (unrounded) distance is at
most the site's radius, and the list is sorted ascending by the annotated
distance. -/
theorem c8_nearby_endpoint (q : NearbyQuery) (u v : ℝ) :
    (nearbyResponse q = NearbyResult.badRequest ↔
      (jsFalsyParam q.lat || jsFalsyParam q.lng) = true) ∧
    List.Sorted (fun a b : NearbySite => a.distance ≤ b.distance) (nearbyBody u v) ∧
    (nearbyBody u v).Perm (HISTORICAL_SITES.map (annotateSite u v)) ∧
    List.Forall (fun x : NearbySite =>
      (x.isNear ↔
        haversineDistance u v (x.site.lat : ℝ) (x.site.lng : ℝ) ≤ (x.site.radius : ℝ)) ∧
      x.distance = ⌊haversineDistance u v (x.site.lat : ℝ) (x.site.lng : ℝ) + 1 / 2⌋)
      (nearbyBody u v) := by
  refine ⟨?_, ?_, ?_, ?_⟩
  · by_cases h : (jsFalsyParam q.lat || jsFalsyParam q.lng) = true <;>
      simp [nearbyResponse, h]
  · have hp := @List.sorted_mergeSort NearbySite
      (fun a b => decide (a.distance ≤ b.distance))
      (fun a b c h1 h2 => by
        simp only [decide_eq_true_iff] at h1 h2 ⊢
        exact le_trans h1 h2)
      (fun a b => by
        simp only [Bool.or_eq_true, decide_eq_true_iff]
        exact le_total _ _)
      (HISTORICAL_SITES.map (annotateSite u v))
    exact hp.imp (fun h => by simpa using h)
  · exact List.mergeSort_perm _ _
  · rw [List.forall_iff_forall_mem]
    intro x hx
    have hx' := (List.mergeSort_perm
      (HISTORICAL_SITES.map (annotateSite u v))
      (fun a b => decide (a.distance ≤ b.distance))).mem_iff.mp hx
    obtain ⟨st, _, rfl⟩ := List.mem_map.mp hx'
    exact ⟨Iff.rfl, rfl⟩

end WebAR
